import Mathlib

/-! Shallow embedding of the git-mcp server (src/main.rs): the commit
classification registry, the commit-message composition, the single-shot
`git_commit` tool, the `git_status` classification, and the grouped
commit orchestrator `smart_commit`.  External process invocations are
modelled by an explicit environment assigning to each command a result
(成功 / nonzero exit with stderr / launch error), mirroring the three
arms of the Rust `match` on `Command::output()`.
-/

/-- Entry of the commit classification registry (`struct CommitType`). -/
structure CommitType where
  emoji : String
  name : String
  desc : String
deriving DecidableEq

/-- The fixed registry `COMMIT_TYPES` from src/main.rs. -/
def COMMIT_TYPES : List CommitType := [
  { emoji := "✨", name := "feat", desc := "新增功能" },
  { emoji := "🐛", name := "fix", desc := "修复 Bug" },
  { emoji := "📝", name := "docs", desc := "文档变更" },
  { emoji := "💄", name := "style", desc := "代码格式" },
  { emoji := "♻️", name := "refactor", desc := "重构代码" },
  { emoji := "⚡️", name := "perf", desc := "性能优化" },
  { emoji := "✅", name := "test", desc := "增加测试" },
  { emoji := "🔧", name := "chore", desc := "构建/工具变动" },
  { emoji := "📦", name := "build", desc := "构建系统变动" },
  { emoji := "👷", name := "ci", desc := "CI 配置变动" },
  { emoji := "⏪", name := "revert", desc := "回退代码" },
  { emoji := "🎉", name := "init", desc := "项目初始化" },
  { emoji := "🎨", name := "ui", desc := "更新 UI 样式" },
  { emoji := "⚙️", name := "config", desc := "配置文件修改" },
  { emoji := "🔀", name := "merge", desc := "合并分支" }]

/-- Classification lookup:
`COMMIT_TYPES.iter().find(|t| t.name == ty).unwrap_or(&COMMIT_TYPES[0])`. -/
def findCommitType (commit_type : String) : CommitType :=
  (COMMIT_TYPES.find? (fun t => t.name == commit_type)).getD
    (COMMIT_TYPES.get ⟨0, by decide⟩)

/-- Parameters of the `generate_commit_message` tool (`CommitMessageParam`). -/
structure CommitMessageParam where
  commit_type : String
  short_desc : String
  details : List String

/-- The bullet list built from the detail lines:
`details.iter().map(|d| format!("- {}", d)).collect()`. -/
def detailBullets (details : List String) : List String :=
  details.map (fun d => "- " ++ d)

/-- The joined detail section `details_str`:
the bullet list joined with `"\n"` (both in `generate_commit_message`
and in `smart_commit`). -/
def detailsStr (details : List String) : String :=
  String.intercalate "\n" (detailBullets details)

/-- The header line `{emoji} {name}: {short_desc}` shared by both
message formats. -/
def commitHeader (type_info : CommitType) (short_desc : String) : String :=
  type_info.emoji ++ " " ++ type_info.name ++ ": " ++ short_desc

/-- The `commit_msg` local of `generate_commit_message`:
`format!("{} {}: {}\n\n详细描述：\n{}", ...)` — the detail section is
appended unconditionally. -/
def generateCommitMsgCore (commit_type short_desc : String)
    (details : List String) : String :=
  let type_info := findCommitType commit_type
  commitHeader type_info short_desc ++ "\n\n详细描述：\n" ++ detailsStr details

/-- The full return value of the `generate_commit_message` tool. -/
def generate_commit_message (p : CommitMessageParam) : String :=
  "📝 生成的提交信息：\n\n```\n"
    ++ generateCommitMsgCore p.commit_type p.short_desc p.details ++ "\n```"

/-- The per-group `commit_msg` built inside `smart_commit`: header-only
when `group.details.is_empty()`, otherwise header plus the
`详细描述：` section. -/
def smartCommitMsg (commit_type short_desc : String)
    (details : List String) : String :=
  let type_info := findCommitType commit_type
  if details.isEmpty then
    commitHeader type_info short_desc
  else
    commitHeader type_info short_desc ++ "\n\n详细描述：\n" ++ detailsStr details

/-- Check that `pat` occurs at the very start of `l`. -/
def listStartsWith : List Char → List Char → Bool
  | [], _ => true
  | _ :: _, [] => false
  | p :: ps, c :: cs => p == c && listStartsWith ps cs

/-- Check that `pat` occurs somewhere inside `l`. -/
def listHasSub (pat : List Char) : List Char → Bool
  | [] => listStartsWith pat []
  | c :: cs => listStartsWith pat (c :: cs) || listHasSub pat cs

/-- Executable substring check on strings. -/
def strContains (s pat : String) : Bool :=
  listHasSub pat.data s.data

/-- Result of one external command invocation, mirroring the three arms
the Rust code matches on `Command::output()`: `Ok` with exit status 0,
`Ok` with nonzero status (carrying stderr), or `Err` (launch failure). -/
inductive StepResult where
  | ok
  | cmdFailed (stderr : String)
  | launchFailed (err : String)
deriving DecidableEq

/-- An external command invocation: program, arguments, working
directory (`Command::new(program).args(args).current_dir(cwd)`). -/
structure Cmd where
  program : String
  args : List String
  cwd : String
deriving DecidableEq

/-- Parameters of the `git_commit` tool (`GitCommitParam`): only a
message and an optional repository path — no file list. -/
structure GitCommitParam where
  message : String
  path : Option String
deriving DecidableEq

/-- The `git_commit` tool: runs `git add .`, then (only if the add
succeeded) `git commit -m <message>`.  Returns the reply string and the
list of commands that were invoked, given the environment's result for
each step. -/
def git_commit (p : GitCommitParam) (addRes commitRes : StepResult) :
    String × List Cmd :=
  let repo_path := p.path.getD "."
  let addCmd : Cmd := { program := "git", args := ["add", "."], cwd := repo_path }
  match addRes with
  | .cmdFailed stderr => ("❌ git add 失败: " ++ stderr, [addCmd])
  | .launchFailed e => ("❌ 执行 git add 失败: " ++ e, [addCmd])
  | .ok =>
    let commitCmd : Cmd :=
      { program := "git", args := ["commit", "-m", p.message], cwd := repo_path }
    match commitRes with
    | .ok => ("✅ 提交成功！\n\n💡 如需推送，请执行: git push", [addCmd, commitCmd])
    | .cmdFailed stderr => ("❌ git commit 失败: " ++ stderr, [addCmd, commitCmd])
    | .launchFailed e => ("❌ 执行 git commit 失败: " ++ e, [addCmd, commitCmd])

/-- Status bits of one repository status entry, as queried by
`git_status` through libgit2 (`entry.status()`). -/
structure GitStatusFlags where
  index_new : Bool
  wt_new : Bool
  index_modified : Bool
  wt_modified : Bool
  index_deleted : Bool
  wt_deleted : Bool
deriving DecidableEq

/-- The three change kinds `git_status` reports (新增 / 修改 / 删除). -/
inductive ChangeKind where
  | added
  | modified
  | deleted
deriving DecidableEq

/-- Icon and label the `git_status` loop prints for each kind. -/
def changeKindRender : ChangeKind → String × String
  | .added => ("➕", "新增")
  | .modified => ("📝", "修改")
  | .deleted => ("➖", "删除")

/-- The if/else-if chain of the `git_status` loop: new bits first, then
modified, then deleted; anything else hits the `continue` (`none`). -/
def classifyStatus (s : GitStatusFlags) : Option ChangeKind :=
  if s.index_new || s.wt_new then some ChangeKind.added
  else if s.index_modified || s.wt_modified then some ChangeKind.modified
  else if s.index_deleted || s.wt_deleted then some ChangeKind.deleted
  else none

/-- The sequence of (path, kind) pairs the `git_status` loop reports:
entries whose status matches none of the three kinds are skipped. -/
def git_status_entries (entries : List (String × GitStatusFlags)) :
    List (String × ChangeKind) :=
  entries.filterMap (fun e => (classifyStatus e.2).map (fun k => (e.1, k)))

/-- The lines appended to the `git_status` reply, one per reported
entry: `"{icon} {status_str} {path}\n"`. -/
def git_status_lines (entries : List (String × GitStatusFlags)) : List String :=
  (git_status_entries entries).map (fun e =>
    (changeKindRender e.2).1 ++ " " ++ (changeKindRender e.2).2 ++ " " ++ e.1 ++ "\n")

/-- One commit group submitted to `smart_commit` (`CommitGroup`). -/
structure CommitGroup where
  files : List String
  commit_type : String
  short_desc : String
  details : List String
deriving DecidableEq

/-- Environment for one group: the result of its `git add` invocation
and (if reached) of its `git commit` invocation. -/
structure GroupEnv where
  add : StepResult
  commit : StepResult
deriving DecidableEq

/-- Outcome recorded for one group: its 1-based index, its
classification key, the success flag, and the exact formatted line
pushed into `results`. -/
structure CommitOutcome where
  groupIndex : Nat
  commitType : String
  success : Bool
  rendered : String
deriving DecidableEq

/-- Processing of one group in the `smart_commit` loop (`idx` is the
0-based enumeration index): run `git add <files>`; on failure record a
failure line and `continue`; otherwise run `git commit -m <msg>` and
record success or failure. -/
def processGroup (idx : Nat) (g : CommitGroup) (env : GroupEnv) : CommitOutcome :=
  match env.add with
  | .cmdFailed stderr =>
    { groupIndex := idx + 1, commitType := g.commit_type, success := false,
      rendered := "❌ 第" ++ toString (idx + 1) ++ "组 [" ++ g.commit_type
        ++ "] git add 失败: " ++ stderr }
  | .launchFailed e =>
    { groupIndex := idx + 1, commitType := g.commit_type, success := false,
      rendered := "❌ 第" ++ toString (idx + 1) ++ "组 [" ++ g.commit_type
        ++ "] 执行 git add 失败: " ++ e }
  | .ok =>
    match env.commit with
    | .ok =>
      { groupIndex := idx + 1, commitType := g.commit_type, success := true,
        rendered := "✅ 第" ++ toString (idx + 1) ++ "组 [" ++ g.commit_type
          ++ "]: " ++ g.short_desc ++ " (" ++ toString g.files.length ++ " 个文件)" }
    | .cmdFailed stderr =>
      { groupIndex := idx + 1, commitType := g.commit_type, success := false,
        rendered := "❌ 第" ++ toString (idx + 1) ++ "组 [" ++ g.commit_type
          ++ "] git commit 失败: " ++ stderr }
    | .launchFailed e =>
      { groupIndex := idx + 1, commitType := g.commit_type, success := false,
        rendered := "❌ 第" ++ toString (idx + 1) ++ "组 [" ++ g.commit_type
          ++ "] 执行 git commit 失败: " ++ e }

/-- The `smart_commit` iteration over the enumerated groups, threading
the `results` list and the `success_count` counter. -/
def runGroups (idx : Nat) (groups : List CommitGroup) (env : Nat → GroupEnv) :
    List CommitOutcome × Nat :=
  match groups with
  | [] => ([], 0)
  | g :: rest =>
    let o := processGroup idx g (env idx)
    let r := runGroups (idx + 1) rest env
    (o :: r.1, if o.success then r.2 + 1 else r.2)

/-- The summary string built after the loop:
`format!("📊 分类提交完成：{}/{} 组成功\n\n{}", success_count, total, results.join("\n"))`. -/
def renderSummary (success_count total : Nat) (results : List CommitOutcome) :
    String :=
  "📊 分类提交完成：" ++ toString success_count ++ "/" ++ toString total
    ++ " 组成功\n\n" ++ String.intercalate "\n" (results.map (fun o => o.rendered))

/-- The push reminder appended when at least one group succeeded. -/
def pushReminder : String := "\n\n💡 如需推送，请执行: git push"

/-- Aggregate result of one `smart_commit` run. -/
structure ExecutionReport where
  total : Nat
  successCount : Nat
  outcomes : List CommitOutcome
  output : String
deriving DecidableEq

/-- The `smart_commit` tool over a list of groups and an environment
giving each group's command results. -/
def smart_commit (groups : List CommitGroup) (env : Nat → GroupEnv) :
    ExecutionReport :=
  let r := runGroups 0 groups env
  let summary := renderSummary r.2 groups.length r.1
  { total := groups.length,
    successCount := r.2,
    outcomes := r.1,
    output := if 0 < r.2 then summary ++ pushReminder else summary }

/-! Concrete groups and environments used by the witnesses. -/

/-- Demo group with non-empty details and known key. -/
def groupFix : CommitGroup :=
  { files := ["a.txt"], commit_type := "fix", short_desc := "null check",
    details := ["guard against nil input"] }

/-- Demo group with empty details. -/
def groupFeat : CommitGroup :=
  { files := ["b.txt"], commit_type := "feat", short_desc := "add flag",
    details := [] }

/-- Environment where group 0 fails to stage and every other group
stages and commits cleanly. -/
def envStageFail0 : Nat → GroupEnv := fun i =>
  if i = 0 then { add := StepResult.cmdFailed "fatal: pathspec", commit := StepResult.ok }
  else { add := StepResult.ok, commit := StepResult.ok }

/-- Environment where every command succeeds. -/
def envAllOk : Nat → GroupEnv :=
  fun _ => { add := StepResult.ok, commit := StepResult.ok }

/-- Environment where every group fails to stage. -/
def envAllStageFail : Nat → GroupEnv :=
  fun _ => { add := StepResult.cmdFailed "fatal", commit := StepResult.ok }

/-- Status flags with no bit set (hits the `continue`). -/
def flagsNone : GitStatusFlags :=
  { index_new := false, wt_new := false, index_modified := false,
    wt_modified := false, index_deleted := false, wt_deleted := false }

/-- Status flags of an untracked (worktree-new) file. -/
def flagsWtNew : GitStatusFlags :=
  { index_new := false, wt_new := true, index_modified := false,
    wt_modified := false, index_deleted := false, wt_deleted := false }

/-! Helper lemmas shared by several proofs. -/

/-- Data of an appended string is the appended data. -/
theorem strData_append (a b : String) : (a ++ b).data = a.data ++ b.data := by
  cases a; cases b; rfl

/-- Appending the empty string is the identity. -/
theorem strAppend_nil (s : String) : s ++ "" = s := by
  cases s
  show String.mk _ = String.mk _
  rw [List.append_nil]

/-- Data of `String.intercalate.go`. -/
theorem intercalateGo_data (s : String) : ∀ (as : List String) (acc : String),
    (String.intercalate.go acc s as).data
      = acc.data ++ (as.map (fun a => s.data ++ a.data)).flatten := by
  intro as
  induction as with
  | nil => intro acc; simp [String.intercalate.go]
  | cons a rest ih =>
    intro acc
    simp [String.intercalate.go, ih, strData_append, List.append_assoc]

/-- Character-level form of a list of lines joined with `'\n'`. -/
def charInter : List (List Char) → List Char
  | [] => []
  | a :: as => a ++ (as.map (fun x => '\n' :: x)).flatten

/-- Data of a `"\n"`-intercalation, in `charInter` form. -/
theorem intercalate_nl_data (l : List String) :
    (String.intercalate "\n" l).data = charInter (l.map String.data) := by
  cases l with
  | nil => rfl
  | cons a as =>
    show (String.intercalate.go a "\n" as).data = _
    rw [intercalateGo_data]
    simp [charInter, List.map_map]
    rfl

/-- Splitting a character list on `'\n'`. -/
def splitOnNl : List Char → List (List Char)
  | [] => [[]]
  | c :: cs =>
    if c = '\n' then [] :: splitOnNl cs
    else
      match splitOnNl cs with
      | [] => [[c]]
      | l :: ls => (c :: l) :: ls

/-- A newline-free list is a single line. -/
theorem splitOnNl_no_nl (l : List Char) (h : ('\n' : Char) ∉ l) :
    splitOnNl l = [l] := by
  induction l with
  | nil => rfl
  | cons c cs ih =>
    have hc : c ≠ '\n' := fun hc => h (hc ▸ List.mem_cons_self c cs)
    have hcs : ('\n' : Char) ∉ cs := fun hm => h (List.mem_cons_of_mem c hm)
    simp [splitOnNl, hc, ih hcs]

/-- Splitting a newline-free chunk followed by a newline. -/
theorem splitOnNl_append (l : List Char) (h : ('\n' : Char) ∉ l) (rest : List Char) :
    splitOnNl (l ++ '\n' :: rest) = l :: splitOnNl rest := by
  induction l with
  | nil => simp [splitOnNl]
  | cons c cs ih =>
    have hc : c ≠ '\n' := fun hc => h (hc ▸ List.mem_cons_self c cs)
    have hcs : ('\n' : Char) ∉ cs := fun hm => h (List.mem_cons_of_mem c hm)
    simp [splitOnNl, hc, ih hcs]

/-- Splitting recovers exactly the joined newline-free lines. -/
theorem splitOnNl_charInter (a : List Char) (as : List (List Char))
    (ha : ('\n' : Char) ∉ a) (has : ∀ x ∈ as, ('\n' : Char) ∉ x) :
    splitOnNl (charInter (a :: as)) = a :: as := by
  induction as generalizing a with
  | nil => simpa [charInter] using splitOnNl_no_nl a ha
  | cons b rest ih =>
    have hb : ('\n' : Char) ∉ b := has b (List.mem_cons_self b rest)
    have hrest : ∀ x ∈ rest, ('\n' : Char) ∉ x :=
      fun x hx => has x (List.mem_cons_of_mem b hx)
    have step : charInter (a :: b :: rest) = a ++ '\n' :: charInter (b :: rest) := by
      simp [charInter]
    rw [step, splitOnNl_append a ha, ih b hb hrest]

/-- Length of the outcome list produced by the loop. -/
theorem runGroups_len (groups : List CommitGroup) (env : Nat → GroupEnv) :
    ∀ idx, (runGroups idx groups env).1.length = groups.length := by
  induction groups with
  | nil => intro idx; simp [runGroups]
  | cons g rest ih => intro idx; simp [runGroups, ih (idx + 1)]

/-- The loop counter counts exactly the successful outcomes. -/
theorem runGroups_cnt (groups : List CommitGroup) (env : Nat → GroupEnv) :
    ∀ idx, (runGroups idx groups env).2
      = ((runGroups idx groups env).1.filter (fun o => o.success)).length := by
  induction groups with
  | nil => intro idx; simp [runGroups]
  | cons g rest ih =>
    intro idx
    simp only [runGroups, List.filter_cons]
    by_cases h : (processGroup idx g (env idx)).success = true
    · simp [h, ih (idx + 1)]
    · simp [h, ih (idx + 1)]

/-- The `i`-th outcome of the loop is the processing of the `i`-th
group against its own environment. -/
theorem runGroups_getElem (groups : List CommitGroup) (env : Nat → GroupEnv) :
    ∀ (idx i : Nat), (runGroups idx groups env).1[i]?
      = (groups[i]?).map (fun g => processGroup (idx + i) g (env (idx + i))) := by
  induction groups with
  | nil => intro idx i; simp [runGroups]
  | cons g rest ih =>
    intro idx i
    cases i with
    | zero => simp [runGroups]
    | succ n =>
      simp only [runGroups, List.getElem?_cons_succ]
      rw [ih (idx + 1) n]
      have h : idx + 1 + n = idx + (n + 1) := by omega
      rw [h]

/-- Every outcome carries the 1-based index of its group. -/
theorem processGroup_groupIndex (idx : Nat) (g : CommitGroup) (e : GroupEnv) :
    (processGroup idx g e).groupIndex = idx + 1 := by
  rcases e with ⟨a, c⟩
  cases a <;> cases c <;> rfl

/-- Every outcome carries the classification key of its group. -/
theorem processGroup_commitType (idx : Nat) (g : CommitGroup) (e : GroupEnv) :
    (processGroup idx g e).commitType = g.commit_type := by
  rcases e with ⟨a, c⟩
  cases a <;> cases c <;> rfl

/-- The order-sensitive classification table of `git_status`. -/
theorem classifyStatus_spec (s : GitStatusFlags) :
    (classifyStatus s = some ChangeKind.added ↔ (s.index_new || s.wt_new) = true)
    ∧ (classifyStatus s = some ChangeKind.modified ↔
        ((s.index_new || s.wt_new) = false ∧ (s.index_modified || s.wt_modified) = true))
    ∧ (classifyStatus s = some ChangeKind.deleted ↔
        ((s.index_new || s.wt_new) = false ∧ (s.index_modified || s.wt_modified) = false
          ∧ (s.index_deleted || s.wt_deleted) = true))
    ∧ (classifyStatus s = none ↔
        ((s.index_new || s.wt_new) = false ∧ (s.index_modified || s.wt_modified) = false
          ∧ (s.index_deleted || s.wt_deleted) = false)) := by
  obtain ⟨a, b, c, d, e, f⟩ := s
  cases a <;> cases b <;> cases c <;> cases d <;> cases e <;> cases f <;> decide

/-! Claim theorems. -/

/-- C6: classification lookup is total and deterministic — a key
matching no registry entry resolves to the fixed entry at index 0 of
`COMMIT_TYPES` (the `feat` entry), never to an error. -/
theorem findCommitType_unknown_default (key : String)
    (h : ∀ t ∈ COMMIT_TYPES, t.name ≠ key) :
    findCommitType key = { emoji := "✨", name := "feat", desc := "新增功能" } := by
  unfold findCommitType
  rw [List.find?_eq_none.mpr]
  · rfl
  · intro t ht
    simpa using h t ht

/-- Witness for C6 at the concrete unknown key `"unknown"`. -/
theorem findCommitType_unknown_default_witness :
    (∀ t ∈ COMMIT_TYPES, t.name ≠ "unknown")
    ∧ findCommitType "unknown" = { emoji := "✨", name := "feat", desc := "新增功能" } :=
  ⟨by decide, findCommitType_unknown_default "unknown" (by decide)⟩

/-- C7: for every key declared in the registry, lookup returns the
entry whose key equals the input, and looking the returned key up again
yields the same entry. -/
theorem findCommitType_known_key (t : CommitType) (h : t ∈ COMMIT_TYPES) :
    findCommitType t.name = t
    ∧ (findCommitType t.name).name = t.name
    ∧ findCommitType (findCommitType t.name).name = findCommitType t.name := by
  have H : ∀ x ∈ COMMIT_TYPES, findCommitType x.name = x := by decide
  have h1 := H t h
  refine ⟨h1, ?_, ?_⟩
  · rw [h1]
  · rw [h1]
    exact h1

/-- Witness for C7 at the declared `fix` entry. -/
theorem findCommitType_known_key_witness :
    ({ emoji := "🐛", name := "fix", desc := "修复 Bug" } : CommitType) ∈ COMMIT_TYPES
    ∧ (findCommitType "fix" = { emoji := "🐛", name := "fix", desc := "修复 Bug" }
      ∧ (findCommitType "fix").name = "fix"
      ∧ findCommitType (findCommitType "fix").name = findCommitType "fix") :=
  ⟨by decide,
    findCommitType_known_key { emoji := "🐛", name := "fix", desc := "修复 Bug" } (by decide)⟩

/-- C1 counterexample: with empty details the message built by
`generate_commit_message` still contains the body-section marker
`详细描述：` and is not header-only. -/
theorem generate_commit_message_marker_counterexample :
    strContains (generateCommitMsgCore "feat" "升级" []) "详细描述：" = true
    ∧ strContains
        (generate_commit_message { commit_type := "feat", short_desc := "升级", details := [] })
        "详细描述：" = true
    ∧ generateCommitMsgCore "feat" "升级" [] ≠ commitHeader (findCommitType "feat") "升级" := by
  refine ⟨by decide, by decide, by decide⟩

/-- C1 amended: with empty details, the per-group message built inside
`smart_commit` is exactly the header (no body section); the message of
`generate_commit_message`, by contrast, always carries the `详细描述：`
marker, even with empty details. -/
theorem compose_empty_details_header_only (commit_type short_desc : String) :
    smartCommitMsg commit_type short_desc []
        = commitHeader (findCommitType commit_type) short_desc
    ∧ generateCommitMsgCore commit_type short_desc []
        = commitHeader (findCommitType commit_type) short_desc ++ "\n\n详细描述：\n" := by
  constructor
  · simp [smartCommitMsg]
  · simp [generateCommitMsgCore, detailsStr, detailBullets, String.intercalate, strAppend_nil]

/-- C8: with non-empty newline-free details, both composed messages
append the marker followed by the joined bullet list; splitting that
body on newlines yields exactly `|details|` lines, each the bullet
`"- "`-prefixed form of one detail. -/
theorem compose_nonempty_details_lines (commit_type short_desc : String)
    (details : List String) (h : details ≠ [])
    (hnl : ∀ d ∈ details, ('\n' : Char) ∉ d.data) :
    smartCommitMsg commit_type short_desc details
        = commitHeader (findCommitType commit_type) short_desc ++ "\n\n详细描述：\n"
          ++ detailsStr details
    ∧ generateCommitMsgCore commit_type short_desc details
        = commitHeader (findCommitType commit_type) short_desc ++ "\n\n详细描述：\n"
          ++ detailsStr details
    ∧ splitOnNl (detailsStr details).data = (detailBullets details).map String.data
    ∧ (splitOnNl (detailsStr details).data).length = details.length
    ∧ ∀ l ∈ detailBullets details, ∃ d, d ∈ details ∧ l = "- " ++ d := by
  have hb : ∀ l ∈ (detailBullets details).map String.data, ('\n' : Char) ∉ l := by
    intro l hl
    simp only [detailBullets, List.map_map, List.mem_map] at hl
    obtain ⟨d, hd, rfl⟩ := hl
    show ('\n' : Char) ∉ ("- " ++ d).data
    rw [strData_append]
    intro hmem
    rcases List.mem_append.mp hmem with h1 | h2
    · exact absurd h1 (by decide)
    · exact hnl d hd h2
  have hsplit : splitOnNl (detailsStr details).data
      = (detailBullets details).map String.data := by
    cases details with
    | nil => exact absurd rfl h
    | cons d0 rest =>
      have hshape : (detailBullets (d0 :: rest)).map String.data
          = ("- " ++ d0).data :: (detailBullets rest).map String.data := by
        simp [detailBullets]
      rw [show detailsStr (d0 :: rest)
            = String.intercalate "\n" (detailBullets (d0 :: rest)) from rfl,
        intercalate_nl_data, hshape]
      refine splitOnNl_charInter _ _ ?_ ?_
      · exact hb _ (hshape ▸ List.mem_cons_self _ _)
      · intro x hx
        exact hb x (hshape ▸ List.mem_cons_of_mem _ hx)
  have hne : details.isEmpty = false := by
    cases details
    · exact absurd rfl h
    · rfl
  refine ⟨?_, rfl, hsplit, ?_, ?_⟩
  · simp [smartCommitMsg, hne]
  · rw [hsplit]
    simp [detailBullets]
  · intro l hl
    simp only [detailBullets, List.mem_map] at hl
    obtain ⟨d, hd, rfl⟩ := hl
    exact ⟨d, hd, rfl⟩

/-- Witness for C8 at two concrete newline-free details. -/
theorem compose_nonempty_details_lines_witness :
    (["第一点", "第二点"] ≠ ([] : List String))
    ∧ (∀ d ∈ ["第一点", "第二点"], ('\n' : Char) ∉ d.data)
    ∧ (smartCommitMsg "docs" "更新" ["第一点", "第二点"]
        = commitHeader (findCommitType "docs") "更新" ++ "\n\n详细描述：\n"
          ++ detailsStr ["第一点", "第二点"]
      ∧ generateCommitMsgCore "docs" "更新" ["第一点", "第二点"]
        = commitHeader (findCommitType "docs") "更新" ++ "\n\n详细描述：\n"
          ++ detailsStr ["第一点", "第二点"]
      ∧ splitOnNl (detailsStr ["第一点", "第二点"]).data
        = (detailBullets ["第一点", "第二点"]).map String.data
      ∧ (splitOnNl (detailsStr ["第一点", "第二点"]).data).length
        = (["第一点", "第二点"] : List String).length
      ∧ ∀ l ∈ detailBullets ["第一点", "第二点"],
          ∃ d, d ∈ (["第一点", "第二点"] : List String) ∧ l = "- " ++ d) :=
  ⟨by decide, by decide,
    compose_nonempty_details_lines "docs" "更新" ["第一点", "第二点"] (by decide) (by decide)⟩

/-- C3: in every report, `successCount` equals the number of successful
outcomes, and `total` equals the number of recorded outcomes, which
equals the number of submitted groups. -/
theorem smart_commit_count_invariants (groups : List CommitGroup)
    (env : Nat → GroupEnv) :
    (smart_commit groups env).successCount
      = ((smart_commit groups env).outcomes.filter (fun o => o.success)).length
    ∧ (smart_commit groups env).total = (smart_commit groups env).outcomes.length
    ∧ (smart_commit groups env).outcomes.length = groups.length := by
  have houts : (smart_commit groups env).outcomes = (runGroups 0 groups env).1 := rfl
  have hcnt : (smart_commit groups env).successCount = (runGroups 0 groups env).2 := rfl
  have htot : (smart_commit groups env).total = groups.length := rfl
  refine ⟨?_, ?_, ?_⟩
  · rw [hcnt, houts]
    exact runGroups_cnt groups env 0
  · rw [htot, houts, runGroups_len groups env 0]
  · rw [houts]
    exact runGroups_len groups env 0

/-- C4: the outcome list preserves submission order — the outcome at
position `i` is the processing of group `i`, and it carries that
group's 1-based index and classification key. -/
theorem smart_commit_outcomes_ordered (groups : List CommitGroup)
    (env : Nat → GroupEnv) (i : Nat) (g : CommitGroup)
    (hg : groups[i]? = some g) :
    (smart_commit groups env).outcomes[i]? = some (processGroup i g (env i))
    ∧ (processGroup i g (env i)).groupIndex = i + 1
    ∧ (processGroup i g (env i)).commitType = g.commit_type := by
  have houts : (smart_commit groups env).outcomes = (runGroups 0 groups env).1 := rfl
  refine ⟨?_, processGroup_groupIndex i g (env i), processGroup_commitType i g (env i)⟩
  rw [houts, runGroups_getElem groups env 0 i, hg]
  simp

/-- Witness for C4 at a concrete two-group run. -/
theorem smart_commit_outcomes_ordered_witness :
    (([groupFix, groupFeat] : List CommitGroup)[1]? = some groupFeat)
    ∧ ((smart_commit [groupFix, groupFeat] envAllOk).outcomes[1]?
        = some (processGroup 1 groupFeat (envAllOk 1))
      ∧ (processGroup 1 groupFeat (envAllOk 1)).groupIndex = 1 + 1
      ∧ (processGroup 1 groupFeat (envAllOk 1)).commitType = groupFeat.commit_type) :=
  ⟨rfl, smart_commit_outcomes_ordered [groupFix, groupFeat] envAllOk 1 groupFeat rfl⟩

/-- C2: a staging failure is recorded as a failure outcome carrying the
tool's diagnostic, the commit result for that group is never consulted,
every group is still processed against its own environment, and every
group receives an outcome. -/
theorem smart_commit_stage_failure_isolated (groups : List CommitGroup)
    (env : Nat → GroupEnv) (i : Nat) (e : String) (g : CommitGroup)
    (hg : groups[i]? = some g)
    (hadd : (env i).add = StepResult.cmdFailed e) :
    (smart_commit groups env).outcomes[i]? = some
        { groupIndex := i + 1, commitType := g.commit_type, success := false,
          rendered := "❌ 第" ++ toString (i + 1) ++ "组 [" ++ g.commit_type
            ++ "] git add 失败: " ++ e }
    ∧ (∀ c, processGroup i g { add := StepResult.cmdFailed e, commit := c }
        = processGroup i g { add := StepResult.cmdFailed e, commit := StepResult.ok })
    ∧ (∀ j gj, groups[j]? = some gj →
        (smart_commit groups env).outcomes[j]? = some (processGroup j gj (env j)))
    ∧ (smart_commit groups env).outcomes.length = groups.length := by
  have houts : (smart_commit groups env).outcomes = (runGroups 0 groups env).1 := rfl
  refine ⟨?_, ?_, ?_, ?_⟩
  · rw [houts, runGroups_getElem groups env 0 i, hg]
    simp [processGroup, hadd]
  · intro c
    rfl
  · intro j gj hgj
    rw [houts, runGroups_getElem groups env 0 j, hgj]
    simp
  · rw [houts]
    exact runGroups_len groups env 0

/-- Witness for C2: group 0 fails to stage, group 1 still succeeds and
appears in the report. -/
theorem smart_commit_stage_failure_isolated_witness :
    (([groupFix, groupFeat] : List CommitGroup)[0]? = some groupFix)
    ∧ ((envStageFail0 0).add = StepResult.cmdFailed "fatal: pathspec")
    ∧ ((smart_commit [groupFix, groupFeat] envStageFail0).outcomes[0]? = some
        { groupIndex := 0 + 1, commitType := groupFix.commit_type, success := false,
          rendered := "❌ 第" ++ toString (0 + 1) ++ "组 [" ++ groupFix.commit_type
            ++ "] git add 失败: " ++ "fatal: pathspec" }
      ∧ (∀ c, processGroup 0 groupFix
            { add := StepResult.cmdFailed "fatal: pathspec", commit := c }
          = processGroup 0 groupFix
            { add := StepResult.cmdFailed "fatal: pathspec", commit := StepResult.ok })
      ∧ (∀ j gj, ([groupFix, groupFeat] : List CommitGroup)[j]? = some gj →
          (smart_commit [groupFix, groupFeat] envStageFail0).outcomes[j]?
            = some (processGroup j gj (envStageFail0 j)))
      ∧ (smart_commit [groupFix, groupFeat] envStageFail0).outcomes.length
          = ([groupFix, groupFeat] : List CommitGroup).length)
    ∧ ((smart_commit [groupFix, groupFeat] envStageFail0).outcomes[1]?).map
        (fun o => o.success) = some true :=
  ⟨rfl, rfl,
   smart_commit_stage_failure_isolated [groupFix, groupFeat] envStageFail0 0
     "fatal: pathspec" groupFix rfl rfl,
   by decide⟩

/-- C5: the rendered output carries the push reminder exactly when at
least one group succeeded; with zero successes it is the bare summary. -/
theorem smart_commit_push_reminder (groups : List CommitGroup)
    (env : Nat → GroupEnv) :
    (0 < (smart_commit groups env).successCount →
      (smart_commit groups env).output
        = renderSummary (smart_commit groups env).successCount groups.length
            (smart_commit groups env).outcomes ++ pushReminder)
    ∧ ((smart_commit groups env).successCount = 0 →
      (smart_commit groups env).output
        = renderSummary (smart_commit groups env).successCount groups.length
            (smart_commit groups env).outcomes) := by
  have hcnt : (smart_commit groups env).successCount = (runGroups 0 groups env).2 := rfl
  have houts : (smart_commit groups env).outcomes = (runGroups 0 groups env).1 := rfl
  have hout : (smart_commit groups env).output
      = if 0 < (runGroups 0 groups env).2 then
          renderSummary (runGroups 0 groups env).2 groups.length
            (runGroups 0 groups env).1 ++ pushReminder
        else
          renderSummary (runGroups 0 groups env).2 groups.length
            (runGroups 0 groups env).1 := rfl
  constructor
  · intro h
    have h' : 0 < (runGroups 0 groups env).2 := hcnt ▸ h
    rw [hout, if_pos h', hcnt, houts]
  · intro h
    have h' : ¬ 0 < (runGroups 0 groups env).2 := by
      rw [← hcnt]
      omega
    rw [hout, if_neg h', hcnt, houts]

/-- Witness for C5: one run with a success (reminder present as a
substring) and one with none (reminder absent). -/
theorem smart_commit_push_reminder_witness :
    (0 < (smart_commit [groupFix] envAllOk).successCount)
    ∧ (smart_commit [groupFix] envAllOk).output
        = renderSummary (smart_commit [groupFix] envAllOk).successCount
            ([groupFix] : List CommitGroup).length
            (smart_commit [groupFix] envAllOk).outcomes ++ pushReminder
    ∧ ((smart_commit [groupFix] envAllStageFail).successCount = 0)
    ∧ (smart_commit [groupFix] envAllStageFail).output
        = renderSummary (smart_commit [groupFix] envAllStageFail).successCount
            ([groupFix] : List CommitGroup).length
            (smart_commit [groupFix] envAllStageFail).outcomes
    ∧ strContains (smart_commit [groupFix] envAllOk).output
        "💡 如需推送，请执行: git push" = true
    ∧ strContains (smart_commit [groupFix] envAllStageFail).output
        "💡 如需推送，请执行: git push" = false :=
  ⟨by decide, (smart_commit_push_reminder [groupFix] envAllOk).1 (by decide),
   by decide, (smart_commit_push_reminder [groupFix] envAllStageFail).2 (by decide),
   by decide, by decide⟩

/-- C9: each status entry is classified as added, modified or deleted,
with the new bits checked first, then the modified bits, then the
deleted bits, across index and worktree; an entry matching none of the
three kinds is silently dropped from the output, and a classified entry
is reported in place with its kind. -/
theorem git_status_classify_kinds (s : GitStatusFlags) :
    (classifyStatus s = some ChangeKind.added ↔ (s.index_new || s.wt_new) = true)
    ∧ (classifyStatus s = some ChangeKind.modified ↔
        ((s.index_new || s.wt_new) = false ∧ (s.index_modified || s.wt_modified) = true))
    ∧ (classifyStatus s = some ChangeKind.deleted ↔
        ((s.index_new || s.wt_new) = false ∧ (s.index_modified || s.wt_modified) = false
          ∧ (s.index_deleted || s.wt_deleted) = true))
    ∧ (classifyStatus s = none ↔
        ((s.index_new || s.wt_new) = false ∧ (s.index_modified || s.wt_modified) = false
          ∧ (s.index_deleted || s.wt_deleted) = false))
    ∧ (∀ p pre post, classifyStatus s = none →
        git_status_entries (pre ++ (p, s) :: post) = git_status_entries (pre ++ post))
    ∧ (∀ p pre post k, classifyStatus s = some k →
        git_status_entries (pre ++ (p, s) :: post)
          = git_status_entries pre ++ (p, k) :: git_status_entries post) := by
  obtain ⟨h1, h2, h3, h4⟩ := classifyStatus_spec s
  refine ⟨h1, h2, h3, h4, ?_, ?_⟩
  · intro p pre post h
    simp [git_status_entries, List.filterMap_append, List.filterMap_cons, h]
  · intro p pre post k h
    simp [git_status_entries, List.filterMap_append, List.filterMap_cons, h]

/-- Witness for C9: an all-false entry is omitted, an untracked entry
is reported as added. -/
theorem git_status_classify_kinds_witness :
    (classifyStatus flagsNone = none)
    ∧ (classifyStatus flagsWtNew = some ChangeKind.added)
    ∧ git_status_entries ([] ++ ("a.txt", flagsNone) :: [("b.txt", flagsWtNew)])
        = git_status_entries ([] ++ [("b.txt", flagsWtNew)])
    ∧ git_status_entries ([("a.txt", flagsNone)] ++ ("b.txt", flagsWtNew) :: [])
        = git_status_entries [("a.txt", flagsNone)]
          ++ ("b.txt", ChangeKind.added) :: git_status_entries [] :=
  ⟨by decide, by decide,
   (git_status_classify_kinds flagsNone).2.2.2.2.1 "a.txt" []
     [("b.txt", flagsWtNew)] (by decide),
   (git_status_classify_kinds flagsWtNew).2.2.2.2.2 "b.txt"
     [("a.txt", flagsNone)] [] ChangeKind.added (by decide)⟩

/-- C10: `git_commit` always stages with `git add .` — the staging
command's arguments are the fixed list `["add", "."]`, independent of
the parameters, and it is the first command run; the only other command
ever run is the commit itself. -/
theorem git_commit_stages_whole_tree (p : GitCommitParam)
    (addRes commitRes : StepResult) :
    (∃ rest, (git_commit p addRes commitRes).2
        = { program := "git", args := ["add", "."], cwd := p.path.getD "." } :: rest)
    ∧ ((git_commit p addRes commitRes).2
        = [{ program := "git", args := ["add", "."], cwd := p.path.getD "." }]
      ∨ (git_commit p addRes commitRes).2
        = [{ program := "git", args := ["add", "."], cwd := p.path.getD "." },
           { program := "git", args := ["commit", "-m", p.message],
             cwd := p.path.getD "." }]) := by
  cases addRes <;> cases commitRes <;>
    first
    | exact ⟨⟨_, rfl⟩, Or.inl rfl⟩
    | exact ⟨⟨_, rfl⟩, Or.inr rfl⟩
